import Mathlib

/-!
A shallow embedding of the client-side logic of the construction-management
dashboard (a browser SPA over a REST API).  Pure fragments of the JavaScript
source are translated into executable Lean definitions; the asynchronous
handlers are modelled by explicit state-passing functions whose extra
arguments stand for the outcome of the awaited network call.  Properties of
the specification are then proved (or refuted) about these definitions.

Conventions:
* JavaScript values that may be `undefined`/`null` are modelled with `Option`.
* Code that can throw a `TypeError` (e.g. calling `.toLowerCase()` on a
  missing field) is modelled with an `Option` result, `none` meaning a crash.
* JavaScript numbers appearing as currency amounts are modelled as `Rat`.
-/

/-- Model of the JavaScript builtin `String.prototype.toLowerCase` (a host
function, not repository code): lower-case every character. -/
def jsToLower (s : String) : String :=
  ⟨s.data.map Char.toLower⟩

/-- `startsWithChars hay needle` is true when `needle` is a prefix of `hay`
(character lists). Used to model substring search. -/
def startsWithChars : List Char → List Char → Bool
  | _, [] => true
  | [], _ :: _ => false
  | a :: hay, b :: needle => a == b && startsWithChars hay needle

/-- `containsChars hay needle` is true when `needle` occurs contiguously
inside `hay`. -/
def containsChars : List Char → List Char → Bool
  | [], needle => needle.isEmpty
  | a :: hay, needle => startsWithChars (a :: hay) needle || containsChars hay needle

/-- Model of the JavaScript builtin `String.prototype.includes` (a host
function, not repository code): substring containment. -/
def jsIncludes (s t : String) : Bool :=
  containsChars s.data t.data

/-- The `Project` entity held in the client cache (spec section 3, fields as
used by `ProjectsView.js`, `DashboardView`, `ProjectDetailView.js`).  `name`
and `location` are `Option` because the filter code guards `location` for
absence but dereferences `name` unconditionally. -/
structure Project where
  id : Nat
  name : Option String
  description : String
  location : Option String
  budget : Rat
  actual_cost : Rat
  status : String
  progress : Int
deriving DecidableEq, Repr

namespace ProjectsView

/-- From `src/ProjectsView.js` lines 31-32: the search conjunct of the
filter predicate.  `none` models the `TypeError` thrown by
`project.name.toLowerCase()` when `name` is missing; the `location` branch
mirrors the JS truthiness guard `project.location && ...` (absent or empty
string is falsy). -/
def matchesSearch (p : Project) (searchTerm : String) : Option Bool :=
  match p.name with
  | none => none
  | some n =>
      some (jsIncludes (jsToLower n) (jsToLower searchTerm) ||
        (match p.location with
         | none => false
         | some l => decide (l ≠ "") && jsIncludes (jsToLower l) (jsToLower searchTerm)))

/-- From `src/ProjectsView.js` lines 30-34: the whole filter predicate,
search conjunct AND status conjunct (`filterStatus === 'all' ||
project.status === filterStatus`). -/
def matchesProject (p : Project) (searchTerm filterStatus : String) : Option Bool :=
  (matchesSearch p searchTerm).map
    (fun ms => ms && (filterStatus == "all" || p.status == filterStatus))

/-- From `src/ProjectsView.js` lines 28-36: `filteredProjects`, i.e.
`initialProjects.filter(...)`.  The result is `none` as soon as one element
makes the predicate throw. -/
def filteredProjects (projects : List Project) (searchTerm filterStatus : String) :
    Option (List Project) :=
  match projects with
  | [] => some []
  | p :: rest =>
      match matchesProject p searchTerm filterStatus,
            filteredProjects rest searchTerm filterStatus with
      | some b, some l => some (if b then p :: l else l)
      | _, _ => none

end ProjectsView

/-- Stated from the spec's words (refinement side of the filter claim):
the project's name or location contains the search term as a
case-insensitive substring. -/
def specSearchMatches (p : Project) (searchTerm : String) : Prop :=
  (∃ n, p.name = some n ∧
      containsChars (jsToLower n).data (jsToLower searchTerm).data = true) ∨
  (∃ l, p.location = some l ∧
      containsChars (jsToLower l).data (jsToLower searchTerm).data = true)

lemma startsWithChars_nil (hay : List Char) : startsWithChars hay [] = true := by
  cases hay <;> rfl

lemma containsChars_nil (hay : List Char) : containsChars hay [] = true := by
  cases hay with
  | nil => rfl
  | cons a hay => simp [containsChars, startsWithChars_nil]

lemma containsChars_nil_left {needle : List Char} :
    containsChars [] needle = true ↔ needle = [] := by
  simp [containsChars, List.isEmpty_iff]

lemma matchesSearch_none_iff (p : Project) (t : String) :
    ProjectsView.matchesSearch p t = none ↔ p.name = none := by
  cases h : p.name <;> simp [ProjectsView.matchesSearch, h]

lemma matchesProject_none_iff (p : Project) (t s : String) :
    ProjectsView.matchesProject p t s = none ↔ p.name = none := by
  rw [← matchesSearch_none_iff p t]
  simp [ProjectsView.matchesProject, Option.map_eq_none']

lemma jsToLower_empty_data : (jsToLower "").data = [] := rfl

lemma matchesProject_eq_some_true_iff (p : Project) (t s : String) {n : String}
    (hn : p.name = some n) :
    ProjectsView.matchesProject p t s = some true ↔
      specSearchMatches p t ∧ (s = "all" ∨ p.status = s) := by
  cases hloc : p.location with
  | none =>
      simp only [ProjectsView.matchesProject, ProjectsView.matchesSearch, hn, hloc,
        specSearchMatches, Option.map_some', Option.some.injEq, jsIncludes,
        Bool.or_false, Bool.and_eq_true, Bool.or_eq_true, beq_iff_eq]
      constructor
      · rintro ⟨hA, hS⟩
        exact ⟨Or.inl ⟨n, rfl, hA⟩, hS⟩
      · rintro ⟨hA | hB, hS⟩
        · obtain ⟨n', hn', hc⟩ := hA
          cases hn'.symm.trans rfl
          exact ⟨by simpa using hc, hS⟩
        · obtain ⟨l, hl, _⟩ := hB
          exact absurd hl (by simp)
  | some l =>
      simp only [ProjectsView.matchesProject, ProjectsView.matchesSearch, hn, hloc,
        specSearchMatches, Option.map_some', Option.some.injEq, jsIncludes,
        Bool.and_eq_true, Bool.or_eq_true, beq_iff_eq, decide_eq_true_eq]
      constructor
      · rintro ⟨hA | ⟨_, hC⟩, hS⟩
        · exact ⟨Or.inl ⟨n, rfl, hA⟩, hS⟩
        · exact ⟨Or.inr ⟨l, rfl, hC⟩, hS⟩
      · rintro ⟨hA | hB, hS⟩
        · obtain ⟨n', hn', hc⟩ := hA
          subst hn'
          exact ⟨Or.inl hc, hS⟩
        · obtain ⟨l', hl', hc⟩ := hB
          subst hl'
          by_cases hle : l = ""
          · subst hle
            have ht : (jsToLower t).data = [] := by
              simpa [jsToLower_empty_data, containsChars_nil_left] using hc
            exact ⟨Or.inl (by rw [ht]; exact containsChars_nil _), hS⟩
          · exact ⟨Or.inr ⟨hle, hc⟩, hS⟩

lemma filteredProjects_eq_some (projects : List Project) (t s : String)
    (h : ∀ p ∈ projects, p.name ≠ none) :
    ∃ l, ProjectsView.filteredProjects projects t s = some l ∧
      ∀ q, q ∈ l ↔ q ∈ projects ∧ ProjectsView.matchesProject q t s = some true := by
  induction projects with
  | nil => exact ⟨[], rfl, by simp⟩
  | cons p rest ih =>
      obtain ⟨l, hl, hmem⟩ := ih (fun q hq => h q (List.mem_cons_of_mem _ hq))
      have hp : p.name ≠ none := h p (List.mem_cons_self _ _)
      obtain ⟨b, hb⟩ : ∃ b, ProjectsView.matchesProject p t s = some b := by
        cases hm : ProjectsView.matchesProject p t s with
        | none => exact absurd ((matchesProject_none_iff p t s).mp hm) hp
        | some b => exact ⟨b, rfl⟩
      cases b with
      | true =>
          refine ⟨p :: l, ?_, ?_⟩
          · simp [ProjectsView.filteredProjects, hb, hl]
          · intro q
            simp only [List.mem_cons, hmem q]
            constructor
            · rintro (rfl | ⟨hq, hm⟩)
              · exact ⟨Or.inl rfl, hb⟩
              · exact ⟨Or.inr hq, hm⟩
            · rintro ⟨rfl | hq, hm⟩
              · exact Or.inl rfl
              · exact Or.inr ⟨hq, hm⟩
      | false =>
          refine ⟨l, ?_, ?_⟩
          · simp [ProjectsView.filteredProjects, hb, hl]
          · intro q
            rw [hmem q]
            simp only [List.mem_cons]
            constructor
            · rintro ⟨hq, hm⟩
              exact ⟨Or.inr hq, hm⟩
            · rintro ⟨rfl | hq, hm⟩
              · exact absurd (hb.symm.trans hm) (by simp)
              · exact ⟨hq, hm⟩

/-- C1: for every project collection, search string `t`, and status filter
`s ≠ "all"` (all elements carrying a name, as the filter dereferences it),
the Projects Panel's `filteredProjects` output contains exactly the elements
whose status equals `s` and whose name or location contains `t` as a
case-insensitive substring; when `s = "all"` the status conjunct is
dropped. -/
theorem filteredProjects_exact (projects : List Project) (t s : String)
    (hnames : ∀ p ∈ projects, p.name ≠ none) :
    ∃ l, ProjectsView.filteredProjects projects t s = some l ∧
      (s ≠ "all" → ∀ q, q ∈ l ↔ q ∈ projects ∧ q.status = s ∧ specSearchMatches q t) ∧
      (s = "all" → ∀ q, q ∈ l ↔ q ∈ projects ∧ specSearchMatches q t) := by
  obtain ⟨l, hl, hmem⟩ := filteredProjects_eq_some projects t s hnames
  have key : ∀ q, q ∈ l ↔ q ∈ projects ∧ specSearchMatches q t ∧ (s = "all" ∨ q.status = s) := by
    intro q
    rw [hmem q]
    constructor
    · rintro ⟨hq, hm⟩
      obtain ⟨n, hn⟩ := Option.ne_none_iff_exists'.mp (hnames q hq)
      exact ⟨hq, (matchesProject_eq_some_true_iff q t s hn).mp hm⟩
    · rintro ⟨hq, hms⟩
      obtain ⟨n, hn⟩ := Option.ne_none_iff_exists'.mp (hnames q hq)
      exact ⟨hq, (matchesProject_eq_some_true_iff q t s hn).mpr hms⟩
  refine ⟨l, hl, ?_, ?_⟩
  · intro hs q
    rw [key q]
    constructor
    · rintro ⟨hq, hm, hall | hst⟩
      · exact absurd hall hs
      · exact ⟨hq, hst, hm⟩
    · rintro ⟨hq, hst, hm⟩
      exact ⟨hq, hm, Or.inr hst⟩
  · intro hs q
    rw [key q]
    constructor
    · rintro ⟨hq, hm, _⟩
      exact ⟨hq, hm⟩
    · rintro ⟨hq, hm⟩
      exact ⟨hq, hm, Or.inl hs⟩

/-- Witness for C1 at a concrete collection: searching "alp" with status
filter "active" keeps the active "Alpha Tower" project and drops the
planning-stage "Beta" project. -/
theorem filteredProjects_exact_witness :
    ∃ l, ProjectsView.filteredProjects
        [⟨1, some "Alpha Tower", "", some "Berlin", 100, 50, "active", 10⟩,
         ⟨2, some "Beta", "", none, 1, 1, "planning", 0⟩] "alp" "active" = some l ∧
      ((⟨1, some "Alpha Tower", "", some "Berlin", 100, 50, "active", 10⟩ : Project) ∈ l ∧
       (⟨2, some "Beta", "", none, 1, 1, "planning", 0⟩ : Project) ∉ l) := by
  obtain ⟨l, hl, hne, _⟩ :=
    filteredProjects_exact
      [⟨1, some "Alpha Tower", "", some "Berlin", 100, 50, "active", 10⟩,
       ⟨2, some "Beta", "", none, 1, 1, "planning", 0⟩] "alp" "active" (by decide)
  refine ⟨l, hl, ?_, ?_⟩
  · exact (hne (by decide) _).mpr
      ⟨by simp, rfl, Or.inl ⟨"Alpha Tower", rfl, by decide⟩⟩
  · intro hmem
    have hst := ((hne (by decide) _).mp hmem).2.1
    simp at hst

lemma filteredProjects_none_of_rest_none (p : Project) (rest : List Project) (t s : String)
    (h : ProjectsView.filteredProjects rest t s = none) :
    ProjectsView.filteredProjects (p :: rest) t s = none := by
  cases hm : ProjectsView.matchesProject p t s <;>
    simp [ProjectsView.filteredProjects, hm, h]

lemma filteredProjects_none_of_mem_name_none (projects : List Project) (t s : String)
    (p : Project) (hmem : p ∈ projects) (hname : p.name = none) :
    ProjectsView.filteredProjects projects t s = none := by
  induction projects with
  | nil => cases hmem
  | cons q rest ih =>
      rcases List.mem_cons.mp hmem with rfl | hq
      · have : ProjectsView.matchesProject p t s = none :=
          (matchesProject_none_iff p t s).mpr hname
        simp [ProjectsView.filteredProjects, this]
      · exact filteredProjects_none_of_rest_none q rest t s (ih hq)

/-- C10: the Projects Panel filter is total exactly when every project has a
name: when all names are present the filter produces a result; a project
with a missing location but a present name is still processed (the location
guard protects the substring test); but a single project with a missing
name makes the filter's lowercase lookup crash (modelled as `none`) instead
of treating that project as a non-match. -/
theorem filter_name_partiality (t s : String) :
    (∀ projects : List Project, (∀ p ∈ projects, p.name ≠ none) →
        (ProjectsView.filteredProjects projects t s).isSome = true) ∧
    (∀ p : Project, p.name ≠ none → p.location = none →
        (ProjectsView.matchesProject p t s).isSome = true) ∧
    (∀ (projects : List Project) (p : Project), p ∈ projects → p.name = none →
        ProjectsView.filteredProjects projects t s = none) := by
  refine ⟨?_, ?_, ?_⟩
  · intro projects h
    obtain ⟨l, hl, _⟩ := filteredProjects_eq_some projects t s h
    rw [hl]
    rfl
  · intro p hname _
    have : ProjectsView.matchesProject p t s ≠ none := by
      intro hcon
      exact hname ((matchesProject_none_iff p t s).mp hcon)
    exact Option.isSome_iff_ne_none.mpr this
  · exact fun projects p hmem hname =>
      filteredProjects_none_of_mem_name_none projects t s p hmem hname

/-- Witness for C10: with a name present the filter succeeds even with a
missing location; with the name missing the filter crashes. -/
theorem filter_name_partiality_witness :
    (ProjectsView.filteredProjects [⟨1, some "A", "", none, 0, 0, "active", 0⟩] "x" "all").isSome
        = true ∧
    ProjectsView.filteredProjects [⟨1, none, "", some "Berlin", 0, 0, "active", 0⟩] "x" "all"
        = none := by
  constructor
  · exact (filter_name_partiality "x" "all").1 _ (by decide)
  · exact (filter_name_partiality "x" "all").2.2 _
      ⟨1, none, "", some "Berlin", 0, 0, "active", 0⟩ (by simp) rfl

/-- A generic item handled by the reusable CRUD panel
(`src/static/js/CrudView.js`): only its `id` is inspected by the list
mutations; the remaining fields carry the display payload. -/
structure Item where
  id : Nat
  title : String
  amount : Rat
deriving DecidableEq, Repr

namespace CrudView

/-- Result of a submit or delete handler: the cached collection, whether the
modal form is shown, and whether an interruptive `alert` fired. -/
structure HandlerResult (α : Type) where
  data : List α
  showForm : Bool
  alerted : Bool
deriving DecidableEq, Repr

/-- From `src/static/js/CrudView.js` lines 44-64 (`handleSubmit`): the
awaited network call is modelled by `resp` (`some R` = the echoed row on
success, `none` = the request threw).  On success the edit branch maps over
the cache replacing the rows whose id equals the edited item's id, the
create branch prepends the echoed row, and the form closes; on failure the
cache and the form flag are untouched and an alert fires. -/
def handleSubmit (editingItem : Option Item) (resp : Option Item)
    (prev : List Item) (showForm : Bool) : HandlerResult Item :=
  match resp with
  | some r =>
      { data :=
          match editingItem with
          | some e => prev.map (fun item => if item.id == e.id then r else item)
          | none => r :: prev,
        showForm := false, alerted := false }
  | none => { data := prev, showForm := showForm, alerted := true }

/-- Result of a delete handler: whether the delete network call was issued,
the cached collection afterwards, and whether an alert fired.  (The delete
handlers never touch the form state.) -/
structure DeleteResult (α : Type) where
  called : Bool
  data : List α
  alerted : Bool
deriving DecidableEq, Repr

/-- From `src/static/js/CrudView.js` lines 67-78 (`handleDelete`): the
`confirm` dialog is modelled by `confirmed`, the awaited delete call by
`apiOk`.  On confirmed success the cache keeps the items whose id differs
from the deleted one (`item.id !== itemId`); on failure it is untouched and
an alert fires; without confirmation nothing happens. -/
def handleDelete (confirmed : Bool) (apiOk : Bool) (itemId : Nat)
    (prev : List Item) : DeleteResult Item :=
  if confirmed then
    if apiOk then
      { called := true, data := prev.filter (fun item => item.id != itemId),
        alerted := false }
    else
      { called := true, data := prev, alerted := true }
  else
    { called := false, data := prev, alerted := false }

end CrudView

namespace ProjectsView

/-- From `src/ProjectsView.js` lines 62-77 (`handleFormSubmit`): identical
shape to the generic CRUD submit, specialized to `Project`. -/
def handleFormSubmit (editingProject : Option Project) (resp : Option Project)
    (prev : List Project) (showForm : Bool) : CrudView.HandlerResult Project :=
  match resp with
  | some r =>
      { data :=
          match editingProject with
          | some e => prev.map (fun p => if p.id == e.id then r else p)
          | none => r :: prev,
        showForm := false, alerted := false }
  | none => { data := prev, showForm := showForm, alerted := true }

/-- From `src/ProjectsView.js` lines 79-89 (`handleDeleteProject`): confirm
guard, then the delete call; on success `setProjects(prev.filter(p => p.id
!== projectId))`. -/
def handleDeleteProject (confirmed : Bool) (apiOk : Bool) (projectId : Nat)
    (prev : List Project) : CrudView.DeleteResult Project :=
  if confirmed then
    if apiOk then
      { called := true, data := prev.filter (fun p => p.id != projectId),
        alerted := false }
    else
      { called := true, data := prev, alerted := true }
  else
    { called := false, data := prev, alerted := false }

end ProjectsView

lemma map_replace_by_id {α : Type} (idOf : α → Nat) (l1 l2 : List α) (x r : α)
    (h1 : ∀ y ∈ l1, idOf y ≠ idOf x) (h2 : ∀ y ∈ l2, idOf y ≠ idOf x) :
    (l1 ++ x :: l2).map (fun y => if idOf y == idOf x then r else y) = l1 ++ r :: l2 := by
  rw [List.map_append]
  congr 1
  · calc l1.map (fun y => if idOf y == idOf x then r else y)
        = l1.map id := List.map_congr_left (fun y hy => by simp [h1 y hy])
      _ = l1 := List.map_id l1
  · rw [List.map_cons]
    congr 1
    · simp
    · calc l2.map (fun y => if idOf y == idOf x then r else y)
          = l2.map id := List.map_congr_left (fun y hy => by simp [h2 y hy])
        _ = l2 := List.map_id l2

lemma filter_ne_id_append {α : Type} (idOf : α → Nat) (k : Nat) (l1 l2 : List α) (x : α)
    (hx : idOf x = k) (h1 : ∀ y ∈ l1, idOf y ≠ k) (h2 : ∀ y ∈ l2, idOf y ≠ k) :
    (l1 ++ x :: l2).filter (fun y => idOf y != k) = l1 ++ l2 := by
  rw [List.filter_append]
  congr 1
  · exact List.filter_eq_self.mpr (fun y hy => by simp [h1 y hy])
  · rw [List.filter_cons]
    simp only [hx, bne_self_eq_false, Bool.false_eq_true, if_false, if_neg]
    exact List.filter_eq_self.mpr (fun y hy => by simp [h2 y hy])

/-- C2: a successful create with echoed row `r` prepends `r` to the local
collection (head position, all prior items retained in order); a successful
edit of item `x` (with no other item sharing its id) producing `r'`
replaces `x` in place at its original position, same length, all other
items unchanged — never appended.  Both for the generic CRUD panel and the
Projects panel. -/
theorem crud_create_prepend_edit_inplace
    (prev : List Item) (b : Bool) (r r' x : Item) (l1 l2 : List Item)
    (h1 : ∀ y ∈ l1, y.id ≠ x.id) (h2 : ∀ y ∈ l2, y.id ≠ x.id)
    (prevP : List Project) (bP : Bool) (rP rP' xP : Project) (m1 m2 : List Project)
    (g1 : ∀ y ∈ m1, y.id ≠ xP.id) (g2 : ∀ y ∈ m2, y.id ≠ xP.id) :
    (CrudView.handleSubmit none (some r) prev b).data = r :: prev ∧
    (CrudView.handleSubmit (some x) (some r') (l1 ++ x :: l2) b).data = l1 ++ r' :: l2 ∧
    (ProjectsView.handleFormSubmit none (some rP) prevP bP).data = rP :: prevP ∧
    (ProjectsView.handleFormSubmit (some xP) (some rP') (m1 ++ xP :: m2) bP).data
        = m1 ++ rP' :: m2 := by
  refine ⟨rfl, ?_, rfl, ?_⟩
  · exact map_replace_by_id Item.id l1 l2 x r' h1 h2
  · exact map_replace_by_id Project.id m1 m2 xP rP' g1 g2

/-- Witness for C2 at concrete collections: a create prepends, an edit of
the middle item replaces it in place. -/
theorem crud_create_prepend_edit_inplace_witness :
    (CrudView.handleSubmit none (some ⟨3, "new", 5⟩) [⟨1, "a", 0⟩] true).data
        = [⟨3, "new", 5⟩, ⟨1, "a", 0⟩] ∧
    (CrudView.handleSubmit (some ⟨2, "b", 1⟩) (some ⟨2, "b2", 9⟩)
        ([⟨1, "a", 0⟩] ++ ⟨2, "b", 1⟩ :: [⟨4, "d", 2⟩]) true).data
        = [⟨1, "a", 0⟩] ++ ⟨2, "b2", 9⟩ :: [⟨4, "d", 2⟩] ∧
    (ProjectsView.handleFormSubmit none (some ⟨3, some "N", "", none, 0, 0, "planning", 0⟩)
        [⟨1, some "A", "", none, 0, 0, "active", 0⟩] true).data
        = [⟨3, some "N", "", none, 0, 0, "planning", 0⟩,
           ⟨1, some "A", "", none, 0, 0, "active", 0⟩] ∧
    (ProjectsView.handleFormSubmit (some ⟨2, some "B", "", none, 0, 0, "active", 0⟩)
        (some ⟨2, some "B2", "", none, 1, 1, "completed", 100⟩)
        ([⟨1, some "A", "", none, 0, 0, "active", 0⟩]
          ++ ⟨2, some "B", "", none, 0, 0, "active", 0⟩ :: []) true).data
        = [⟨1, some "A", "", none, 0, 0, "active", 0⟩]
          ++ ⟨2, some "B2", "", none, 1, 1, "completed", 100⟩ :: [] := by
  exact crud_create_prepend_edit_inplace
    [⟨1, "a", 0⟩] true ⟨3, "new", 5⟩ ⟨2, "b2", 9⟩ ⟨2, "b", 1⟩
    [⟨1, "a", 0⟩] [⟨4, "d", 2⟩] (by decide) (by decide)
    [⟨1, some "A", "", none, 0, 0, "active", 0⟩] true
    ⟨3, some "N", "", none, 0, 0, "planning", 0⟩
    ⟨2, some "B2", "", none, 1, 1, "completed", 100⟩
    ⟨2, some "B", "", none, 0, 0, "active", 0⟩
    [⟨1, some "A", "", none, 0, 0, "active", 0⟩] [] (by decide) (by decide)

/-- C5: deleting the item with id `k` (no other item sharing that id)
removes exactly that element and no other from the local collection, and
the delete network call is issued only after explicit confirmation; if
confirmation is declined no call is made and the collection is unchanged.
Both for the generic CRUD panel and the Projects panel. -/
theorem delete_exact_only_after_confirm
    (k : Nat) (x : Item) (l1 l2 : List Item)
    (hx : x.id = k) (h1 : ∀ y ∈ l1, y.id ≠ k) (h2 : ∀ y ∈ l2, y.id ≠ k)
    (kP : Nat) (xP : Project) (m1 m2 : List Project)
    (hxP : xP.id = kP) (g1 : ∀ y ∈ m1, y.id ≠ kP) (g2 : ∀ y ∈ m2, y.id ≠ kP) :
    CrudView.handleDelete true true k (l1 ++ x :: l2)
        = { called := true, data := l1 ++ l2, alerted := false } ∧
    (∀ (apiOk : Bool) (prev : List Item), CrudView.handleDelete false apiOk k prev
        = { called := false, data := prev, alerted := false }) ∧
    ProjectsView.handleDeleteProject true true kP (m1 ++ xP :: m2)
        = { called := true, data := m1 ++ m2, alerted := false } ∧
    (∀ (apiOk : Bool) (prev : List Project), ProjectsView.handleDeleteProject false apiOk kP prev
        = { called := false, data := prev, alerted := false }) := by
  refine ⟨?_, fun apiOk prev => rfl, ?_, fun apiOk prev => rfl⟩
  · have hfilter := filter_ne_id_append Item.id k l1 l2 x hx h1 h2
    simp [CrudView.handleDelete, hfilter]
  · have hfilter := filter_ne_id_append Project.id kP m1 m2 xP hxP g1 g2
    simp [ProjectsView.handleDeleteProject, hfilter]

/-- Witness for C5 at concrete collections: a confirmed successful delete
of id 2 removes exactly that row; a declined delete issues no call and
changes nothing. -/
theorem delete_exact_only_after_confirm_witness :
    CrudView.handleDelete true true 2 ([⟨1, "a", 0⟩] ++ ⟨2, "b", 1⟩ :: [⟨4, "d", 2⟩])
        = { called := true, data := [⟨1, "a", 0⟩] ++ [⟨4, "d", 2⟩], alerted := false } ∧
    (∀ (apiOk : Bool) (prev : List Item), CrudView.handleDelete false apiOk 2 prev
        = { called := false, data := prev, alerted := false }) ∧
    ProjectsView.handleDeleteProject true true 2
        ([⟨1, some "A", "", none, 0, 0, "active", 0⟩]
          ++ ⟨2, some "B", "", none, 0, 0, "active", 0⟩ :: [])
        = { called := true, data := [⟨1, some "A", "", none, 0, 0, "active", 0⟩] ++ [],
            alerted := false } ∧
    (∀ (apiOk : Bool) (prev : List Project), ProjectsView.handleDeleteProject false apiOk 2 prev
        = { called := false, data := prev, alerted := false }) := by
  exact delete_exact_only_after_confirm
    2 ⟨2, "b", 1⟩ [⟨1, "a", 0⟩] [⟨4, "d", 2⟩] rfl (by decide) (by decide)
    2 ⟨2, some "B", "", none, 0, 0, "active", 0⟩
    [⟨1, some "A", "", none, 0, 0, "active", 0⟩] [] rfl (by decide) (by decide)

/-- C6: every failed mutation (create, update via `handleSubmit` /
`handleFormSubmit` with a thrown request, delete via `handleDelete` /
`handleDeleteProject` with a failed call) leaves the cached collection
exactly as it was, fires an interruptive alert, and leaves the form state
untouched (so an open form stays open); none is fatal. -/
theorem mutation_failure_atomic
    (editing : Option Item) (prev : List Item) (b : Bool) (k : Nat) (prevD : List Item)
    (editingP : Option Project) (prevP : List Project) (bP : Bool)
    (kP : Nat) (prevPD : List Project) :
    CrudView.handleSubmit editing none prev b
        = { data := prev, showForm := b, alerted := true } ∧
    CrudView.handleDelete true false k prevD
        = { called := true, data := prevD, alerted := true } ∧
    ProjectsView.handleFormSubmit editingP none prevP bP
        = { data := prevP, showForm := bP, alerted := true } ∧
    ProjectsView.handleDeleteProject true false kP prevPD
        = { called := true, data := prevPD, alerted := true } := by
  exact ⟨rfl, rfl, rfl, rfl⟩

/-- Model of an axios error response (`err.response`): HTTP status plus the
optional `data.error` string of the JSON body. -/
structure AxiosResponse where
  status : Nat
  errorMsg : Option String
deriving DecidableEq, Repr

/-- Model of an axios request failure (`err`): `response = none` is a pure
network failure (no HTTP response at all). -/
structure AxiosError where
  response : Option AxiosResponse
deriving DecidableEq, Repr

namespace UseData

/-- From `src/unnamed/part_000` lines 41-49 (the `catch` block of
`useData`'s `fetchData`): classify the failure by `err.response?.status`.
The final branch mirrors `err.response?.data?.error || 'Please try
again.'` — optional chaining yields `undefined` when the response or the
field is absent, and `||` also rejects the empty string. -/
def fetchErrorMessage (endpoint : String) (err : AxiosError) : String :=
  if err.response.map AxiosResponse.status = some 401 then
    "Authentication failed. Your session may have expired."
  else if err.response.map AxiosResponse.status = some 422 then
    "Invalid request format for " ++ endpoint ++ "."
  else
    "Failed to fetch " ++ endpoint ++ ". " ++
      (match err.response with
       | some r =>
           match r.errorMsg with
           | some s => if s = "" then "Please try again." else s
           | none => "Please try again."
       | none => "Please try again.")

/-- The state triple exposed by the `useData` hook. -/
structure State where
  data : List Project
  loading : Bool
  error : Option String
deriving DecidableEq, Repr

/-- From `src/unnamed/part_000` lines 24-26: the initial hook state
(`useState([])`, `useState(true)`, `useState(null)`). -/
def initialState : State :=
  { data := [], loading := true, error := none }

/-- Outcome of the awaited `api.get(endpoint)` call. -/
inductive FetchOutcome where
  | success (rows : List Project)
  | failure (err : AxiosError)
deriving DecidableEq, Repr

/-- From `src/unnamed/part_000` lines 28-56 (the `useEffect` body of
`useData`): with no endpoint, clear `loading` and return without a network
call; otherwise issue the call and fold its outcome into the state.  The
second component records whether `api.get` was issued. -/
def effect (endpoint : Option String) (st : State) (outcome : FetchOutcome) :
    State × Bool :=
  match endpoint with
  | none => ({ st with loading := false }, false)
  | some e =>
      match outcome with
      | .success rows => ({ data := rows, loading := false, error := none }, true)
      | .failure err =>
          ({ st with loading := false, error := some (fetchErrorMessage e err) }, true)

end UseData

/-- C4: for every fetch failure, HTTP 401 yields the session-expired
message, 422 yields the invalid-request-format message naming the endpoint,
and any other status or a pure network failure yields the generic message
incorporating a non-empty server-supplied error string when present and the
retry prompt otherwise; moreover a failing fetch from the initial state
leaves the data collection empty. -/
theorem useData_error_classification (endpoint : String) (err : AxiosError) :
    (∀ r, err.response = some r → r.status = 401 →
        UseData.fetchErrorMessage endpoint err
          = "Authentication failed. Your session may have expired.") ∧
    (∀ r, err.response = some r → r.status = 422 →
        UseData.fetchErrorMessage endpoint err
          = "Invalid request format for " ++ endpoint ++ ".") ∧
    (∀ r s, err.response = some r → r.status ≠ 401 → r.status ≠ 422 →
        r.errorMsg = some s → s ≠ "" →
        UseData.fetchErrorMessage endpoint err
          = "Failed to fetch " ++ endpoint ++ ". " ++ s) ∧
    (∀ r, err.response = some r → r.status ≠ 401 → r.status ≠ 422 →
        (r.errorMsg = none ∨ r.errorMsg = some "") →
        UseData.fetchErrorMessage endpoint err
          = "Failed to fetch " ++ endpoint ++ ". Please try again.") ∧
    (err.response = none →
        UseData.fetchErrorMessage endpoint err
          = "Failed to fetch " ++ endpoint ++ ". Please try again.") ∧
    (UseData.effect (some endpoint) UseData.initialState (UseData.FetchOutcome.failure err)
        = ({ data := [], loading := false,
             error := some (UseData.fetchErrorMessage endpoint err) }, true)) := by
  refine ⟨?_, ?_, ?_, ?_, ?_, rfl⟩
  · intro r hr h
    simp [UseData.fetchErrorMessage, hr, h]
  · intro r hr h
    simp [UseData.fetchErrorMessage, hr, h]
  · intro r s hr h401 h422 hmsg hne
    simp [UseData.fetchErrorMessage, hr, h401, h422, hmsg, hne]
  · intro r hr h401 h422 hmsg
    have hmain : UseData.fetchErrorMessage endpoint err
        = "Failed to fetch " ++ endpoint ++ ". " ++ "Please try again." := by
      rcases hmsg with hmsg | hmsg <;>
        simp [UseData.fetchErrorMessage, hr, h401, h422, hmsg]
    rw [hmain, String.append_assoc]
    congr 1
  · intro hr
    have hmain : UseData.fetchErrorMessage endpoint err
        = "Failed to fetch " ++ endpoint ++ ". " ++ "Please try again." := by
      simp [UseData.fetchErrorMessage, hr]
    rw [hmain, String.append_assoc]
    congr 1

/-- Witness for C4: a 401, a 422, a 500 with a server-supplied error string,
a 500 without one, and a network failure, at the endpoint "projects". -/
theorem useData_error_classification_witness :
    UseData.fetchErrorMessage "projects" ⟨some ⟨401, none⟩⟩
        = "Authentication failed. Your session may have expired." ∧
    UseData.fetchErrorMessage "projects" ⟨some ⟨422, none⟩⟩
        = "Invalid request format for projects." ∧
    UseData.fetchErrorMessage "projects" ⟨some ⟨500, some "boom"⟩⟩
        = "Failed to fetch projects. boom" ∧
    UseData.fetchErrorMessage "projects" ⟨some ⟨500, none⟩⟩
        = "Failed to fetch projects. Please try again." ∧
    UseData.fetchErrorMessage "projects" ⟨none⟩
        = "Failed to fetch projects. Please try again." := by
  refine ⟨?_, ?_, ?_, ?_, ?_⟩
  · exact (useData_error_classification "projects" ⟨some ⟨401, none⟩⟩).1 _ rfl rfl
  · exact (useData_error_classification "projects" ⟨some ⟨422, none⟩⟩).2.1 _ rfl rfl
  · exact (useData_error_classification "projects" ⟨some ⟨500, some "boom"⟩⟩).2.2.1 _ "boom"
      rfl (by decide) (by decide) rfl (by decide)
  · exact (useData_error_classification "projects" ⟨some ⟨500, none⟩⟩).2.2.2.1 _
      rfl (by decide) (by decide) (Or.inl rfl)
  · exact (useData_error_classification "projects" ⟨none⟩).2.2.2.2.1 rfl

/-- The panel chosen by the Root Controller's render logic. -/
inductive View where
  | login
  | dashboard
  | projectsList
  | loadingDetail
  | projectDetail (id : Nat)
  | crud (title : String) (endpoint : String)
deriving DecidableEq, Repr

namespace App

/-- From `src/unnamed/part_000` line 71: the endpoint handed to `useData`
(`isAuthenticated ? 'projects' : null`). -/
def projectsEndpoint (isAuthenticated : Bool) : Option String :=
  if isAuthenticated then some "projects" else none

/-- From `src/unnamed/part_000` lines 86-117: the Root Controller's render
decision — unauthenticated shows the login form; a selected project takes
priority (loading placeholder until the row is in the cache); otherwise the
active section picks the panel, defaulting to the dashboard. -/
def render (isAuthenticated : Bool) (activeSection : String)
    (selectedProjectId : Option Nat) (projects : List Project) : View :=
  if !isAuthenticated then
    View.login
  else
    match selectedProjectId with
    | some pid =>
        match projects.find? (fun p => p.id == pid) with
        | none => View.loadingDetail
        | some p => View.projectDetail p.id
    | none =>
        match activeSection with
        | "dashboard" => View.dashboard
        | "projects" => View.projectsList
        | "documents" => View.crud "Documents" "documents"
        | "preconstruction" => View.crud "Bids" "bids"
        | "financials" => View.crud "Change Orders" "change_orders"
        | "quality-safety" => View.crud "Inspections" "inspections"
        | _ => View.dashboard

end App

/-- C7: whenever the authenticated flag is false the Root Controller
renders only the Login panel, for every active section and selection; the
fetch hook receives no identifier (`projectsEndpoint false = none`) and
its effect issues no network call, reporting an empty collection without an
error. -/
theorem unauthenticated_renders_login_and_skips_fetch
    (activeSection : String) (selectedProjectId : Option Nat)
    (projects : List Project) (outcome : UseData.FetchOutcome) :
    App.render false activeSection selectedProjectId projects = View.login ∧
    App.projectsEndpoint false = none ∧
    UseData.effect (App.projectsEndpoint false) UseData.initialState outcome
      = ({ data := [], loading := false, error := none }, false) := by
  exact ⟨rfl, rfl, rfl⟩

/-- Model of the JS truthiness fallback `x || 0` for a number that is
present: `0` is falsy and falls back to `0`, every other value passes
through. -/
def jsOrZero (x : Rat) : Rat :=
  if x = 0 then 0 else x

lemma jsOrZero_eq (x : Rat) : jsOrZero x = x := by
  unfold jsOrZero
  split
  · simp [*]
  · rfl

/-- Print a number of tenths as a one-decimal string, e.g. `25 ↦ "2.5"`. -/
def fixedDigits (n : Int) : String :=
  (if n < 0 then "-" else "") ++ toString (n.natAbs / 10) ++ "." ++ toString (n.natAbs % 10)

/-- Model of the JavaScript builtin `Number.prototype.toFixed(1)` (a host
function, not repository code) for the values arising here: round to one
decimal digit and print it. -/
def toFixed1 (q : Rat) : String :=
  fixedDigits ⌊q * 10 + 1 / 2⌋

namespace DashboardView

/-- From `src/ProjectsView.js` line 381 (`DashboardView`):
`projects.reduce((sum, p) => sum + (p.budget || 0), 0)`. -/
def totalBudget (projects : List Project) : Rat :=
  projects.foldl (fun sum p => sum + jsOrZero p.budget) 0

/-- From `src/ProjectsView.js` line 382 (`DashboardView`):
`projects.reduce((sum, p) => sum + (p.actual_cost || 0), 0)`. -/
def actualCosts (projects : List Project) : Rat :=
  projects.foldl (fun sum p => sum + jsOrZero p.actual_cost) 0

/-- From `src/ProjectsView.js` line 394: the "Total Projects" metric card
renders `projects.length`. -/
def totalProjectsCard (projects : List Project) : Nat :=
  projects.length

/-- From `src/ProjectsView.js` line 401: the "Total Budget" card renders
`$${(totalBudget / 1000000).toFixed(1)}M`. -/
def totalBudgetCard (projects : List Project) : String :=
  "$" ++ toFixed1 (totalBudget projects / 1000000) ++ "M"

/-- From `src/ProjectsView.js` line 408: the "Total Spent" card renders
`$${(actualCosts / 1000000).toFixed(1)}M`. -/
def totalSpentCard (projects : List Project) : String :=
  "$" ++ toFixed1 (actualCosts projects / 1000000) ++ "M"

end DashboardView

lemma foldl_add_jsOrZero (f : Project → Rat) (a : Rat) (l : List Project) :
    l.foldl (fun sum p => sum + jsOrZero (f p)) a = a + (l.map f).sum := by
  induction l generalizing a with
  | nil => simp
  | cons p rest ih =>
      rw [List.foldl_cons, ih, jsOrZero_eq, List.map_cons, List.sum_cons]
      ring

/-- C8: the Dashboard derives the total project count, the sum of all
project budgets and the sum of all actual costs, rendering the two sums in
millions with one decimal place; budgets summing to 2,500,000 and actual
costs summing to 1,200,000 display as "$2.5M" and "$1.2M". -/
theorem dashboard_metrics (projects : List Project) :
    DashboardView.totalProjectsCard projects = projects.length ∧
    DashboardView.totalBudget projects = (projects.map Project.budget).sum ∧
    DashboardView.actualCosts projects = (projects.map Project.actual_cost).sum ∧
    (DashboardView.totalBudget projects = 2500000 →
        DashboardView.totalBudgetCard projects = "$2.5M") ∧
    (DashboardView.actualCosts projects = 1200000 →
        DashboardView.totalSpentCard projects = "$1.2M") := by
  refine ⟨rfl, ?_, ?_, ?_, ?_⟩
  · simpa using foldl_add_jsOrZero Project.budget 0 projects
  · simpa using foldl_add_jsOrZero Project.actual_cost 0 projects
  · intro h
    unfold DashboardView.totalBudgetCard
    rw [h]
    have hfl : ⌊(2500000 : Rat) / 1000000 * 10 + 1 / 2⌋ = (25 : Int) := by norm_num
    rw [toFixed1, hfl]
    rfl
  · intro h
    unfold DashboardView.totalSpentCard
    rw [h]
    have hfl : ⌊(1200000 : Rat) / 1000000 * 10 + 1 / 2⌋ = (12 : Int) := by norm_num
    rw [toFixed1, hfl]
    rfl

/-- Witness for C8: two projects with budgets 1,500,000 and 1,000,000 and
actual costs 700,000 and 500,000 display "$2.5M" and "$1.2M". -/
theorem dashboard_metrics_witness :
    DashboardView.totalBudgetCard
        [⟨1, some "A", "", none, 1500000, 700000, "active", 0⟩,
         ⟨2, some "B", "", none, 1000000, 500000, "active", 0⟩] = "$2.5M" ∧
    DashboardView.totalSpentCard
        [⟨1, some "A", "", none, 1500000, 700000, "active", 0⟩,
         ⟨2, some "B", "", none, 1000000, 500000, "active", 0⟩] = "$1.2M" := by
  constructor
  · refine (dashboard_metrics
      [⟨1, some "A", "", none, 1500000, 700000, "active", 0⟩,
       ⟨2, some "B", "", none, 1000000, 500000, "active", 0⟩]).2.2.2.1 ?_
    rw [(dashboard_metrics
      [⟨1, some "A", "", none, 1500000, 700000, "active", 0⟩,
       ⟨2, some "B", "", none, 1000000, 500000, "active", 0⟩]).2.1]
    norm_num
  · refine (dashboard_metrics
      [⟨1, some "A", "", none, 1500000, 700000, "active", 0⟩,
       ⟨2, some "B", "", none, 1000000, 500000, "active", 0⟩]).2.2.2.2 ?_
    rw [(dashboard_metrics
      [⟨1, some "A", "", none, 1500000, 700000, "active", 0⟩,
       ⟨2, some "B", "", none, 1000000, 500000, "active", 0⟩]).2.2.1]
    norm_num

namespace ProjectDetailView

/-- From `src/static/js/ProjectDetailView.js` line 93: the variance line's
colour class, `project.budget - project.actual_cost >= 0 ?
'text-green-600' : 'text-red-600'`. -/
def varianceClass (p : Project) : String :=
  if p.budget - p.actual_cost ≥ 0 then "text-green-600" else "text-red-600"

/-- From `src/static/js/ProjectDetailView.js` line 59: a change-order row's
border class, `c.amount >= 0 ? 'border-l-4 border-green-500' :
'border-l-4 border-red-500'`. -/
def changeOrderClass (amount : Rat) : String :=
  if amount ≥ 0 then "border-l-4 border-green-500" else "border-l-4 border-red-500"

end ProjectDetailView

/-- C9: a variance (budget − actual_cost) of exactly zero gets the
favorable (green) cue and a change-order amount of exactly zero is likewise
flagged favorable: both cues are decided by `value ≥ 0`, not strict
positivity. -/
theorem detail_zero_is_favorable (p : Project) (a : Rat) :
    (p.budget - p.actual_cost = 0 →
        ProjectDetailView.varianceClass p = "text-green-600") ∧
    (ProjectDetailView.varianceClass p = "text-green-600" ↔
        0 ≤ p.budget - p.actual_cost) ∧
    (a = 0 → ProjectDetailView.changeOrderClass a = "border-l-4 border-green-500") ∧
    (ProjectDetailView.changeOrderClass a = "border-l-4 border-green-500" ↔ 0 ≤ a) := by
  have hvar : ProjectDetailView.varianceClass p = "text-green-600" ↔
      0 ≤ p.budget - p.actual_cost := by
    unfold ProjectDetailView.varianceClass
    by_cases h : p.budget - p.actual_cost ≥ 0
    · simp only [if_pos h]
      exact ⟨fun _ => ge_iff_le.mp h, fun _ => trivial⟩
    · simp only [if_neg h]
      constructor
      · intro hcon
        exact absurd hcon (by decide)
      · intro hle
        exact absurd (ge_iff_le.mpr hle) h
  have hco : ProjectDetailView.changeOrderClass a = "border-l-4 border-green-500" ↔
      0 ≤ a := by
    unfold ProjectDetailView.changeOrderClass
    by_cases h : a ≥ 0
    · simp only [if_pos h]
      exact ⟨fun _ => ge_iff_le.mp h, fun _ => trivial⟩
    · simp only [if_neg h]
      constructor
      · intro hcon
        exact absurd hcon (by decide)
      · intro hle
        exact absurd (ge_iff_le.mpr hle) h
  refine ⟨?_, hvar, ?_, hco⟩
  · intro h
    exact hvar.mpr (le_of_eq h.symm)
  · intro h
    exact hco.mpr (le_of_eq h.symm)

/-- Witness for C9: a project whose budget equals its actual cost gets the
green variance cue, and a zero change-order amount gets the green border. -/
theorem detail_zero_is_favorable_witness :
    ProjectDetailView.varianceClass ⟨1, some "A", "", none, 100, 100, "active", 0⟩
        = "text-green-600" ∧
    ProjectDetailView.changeOrderClass 0 = "border-l-4 border-green-500" := by
  constructor
  · exact (detail_zero_is_favorable ⟨1, some "A", "", none, 100, 100, "active", 0⟩ 0).1
      (by norm_num)
  · exact (detail_zero_is_favorable ⟨1, some "A", "", none, 100, 100, "active", 0⟩ 0).2.2.1 rfl

/-- Value of a decimal digit string, most significant first. -/
def digitsToNat (cs : List Char) : Nat :=
  cs.foldl (fun n c => n * 10 + (c.toNat - Char.toNat (Char.ofNat 48))) 0

/-- Model of the JavaScript builtin `parseFloat` (a host function, not
repository code) for the inputs arising from the budget field: an optional
sign, then decimal digits with an optional fractional part; `none` models
`NaN` (no numeric prefix at all). -/
def jsParseFloat (s : String) : Option Rat :=
  let signAndRest : Int × List Char :=
    match s.data with
    | '-' :: rest => (-1, rest)
    | '+' :: rest => (1, rest)
    | cs => (1, cs)
  let intPart := signAndRest.2.takeWhile Char.isDigit
  let rest := signAndRest.2.dropWhile Char.isDigit
  let fracPart :=
    match rest with
    | '.' :: r => r.takeWhile Char.isDigit
    | _ => []
  if intPart.isEmpty && fracPart.isEmpty then none
  else
    some ((signAndRest.1 : Rat) *
      ((digitsToNat intPart : Rat) + (digitsToNat fracPart : Rat) / (10 : Rat) ^ fracPart.length))

namespace ProjectsView

/-- From `src/ProjectsView.js` line 20: the initial `projectFormData` state,
`{ name: '', description: '', budget: '', location: '', status: 'planning',
progress: 0 }`.  The budget starts as the empty string, modelled `none`. -/
structure ProjectFormData where
  name : String
  description : String
  budget : Option Rat
  location : String
  status : String
  progress : Int
deriving DecidableEq, Repr

/-- From `src/ProjectsView.js` line 20 (and line 56): the blank form. -/
def initialProjectFormData : ProjectFormData :=
  { name := "", description := "", budget := none, location := "",
    status := "planning", progress := 0 }

/-- From `src/ProjectsView.js` lines 113-116: the input controls the
create/edit modal form actually renders, in order, as (field, input kind)
pairs.  They are: name (text), description (textarea), location (text),
budget (number) — and nothing else. -/
def projectFormInputs : List (String × String) :=
  [("name", "text"), ("description", "textarea"), ("location", "text"), ("budget", "number")]

/-- From `src/ProjectsView.js` line 116: the budget input's change handler
stores `parseFloat(e.target.value) || 0` — an unparsable entry (NaN) falls
back to 0 (and so does an explicit 0, which is falsy). -/
def budgetOnChange (input : String) : Rat :=
  match jsParseFloat input with
  | none => 0
  | some q => if q = 0 then 0 else q

end ProjectsView

/-- Counterexample to C3 as stated: the rendered create/edit form provides
no input control for `status` and none for `progress`. -/
theorem projectForm_no_status_no_progress_input :
    "status" ∉ ProjectsView.projectFormInputs.map Prod.fst ∧
    "progress" ∉ ProjectsView.projectFormInputs.map Prod.fst := by
  decide

/-- C3 (amended): the Projects Panel's create/edit form provides exactly
the input fields name, description, location, and budget (numeric, invalid
input coerced to 0); status and progress exist only in the form's
underlying data with fixed defaults "planning" and 0, without input
controls. -/
theorem projectForm_fields_and_budget_coercion (input : String) :
    ProjectsView.projectFormInputs.map Prod.fst
        = ["name", "description", "location", "budget"] ∧
    ProjectsView.initialProjectFormData.status = "planning" ∧
    ProjectsView.initialProjectFormData.progress = 0 ∧
    (jsParseFloat input = none → ProjectsView.budgetOnChange input = 0) ∧
    ProjectsView.budgetOnChange "abc" = 0 := by
  refine ⟨rfl, rfl, rfl, ?_, ?_⟩
  · intro h
    simp [ProjectsView.budgetOnChange, h]
  · have h : jsParseFloat "abc" = none := rfl
    simp [ProjectsView.budgetOnChange, h]

/-- Witness for the amended C3: the non-numeric entry "n/a" is coerced to
budget 0. -/
theorem projectForm_fields_and_budget_coercion_witness :
    ProjectsView.budgetOnChange "n/a" = 0 :=
  (projectForm_fields_and_budget_coercion "n/a").2.2.2.1 rfl
